import Mathlib

/-
Verification development for the pr-reviewer CLI (src/pr_review.py).

Python strings are modelled as List Char (Python str is a sequence of code
points); byte strings as List Nat with every element < 256; machine 32-bit
words as Nat reduced modulo 2^32.
-/

set_option maxHeartbeats 1000000
set_option maxRecDepth 10000

/-- The code points of a string literal; used to transcribe Python string
literals into the List Char model. -/
def chars (s : String) : List Char := s.data

/-! ## SHA-256 (hashlib.sha256), big-endian, FIPS 180-4
Needed by PRReviewer.get_cache_key (src/pr_review.py lines 104-107). -/

/-- Reduce modulo 2^32: models 32-bit word arithmetic. -/
def w32 (n : Nat) : Nat := n % 4294967296

/-- Right-rotation of a 32-bit word (input assumed < 2^32). -/
def rotr (k x : Nat) : Nat := x / 2 ^ k + x % 2 ^ k * 2 ^ (32 - k)

def bigSig0 (x : Nat) : Nat := rotr 2 x ^^^ rotr 13 x ^^^ rotr 22 x

def bigSig1 (x : Nat) : Nat := rotr 6 x ^^^ rotr 11 x ^^^ rotr 25 x

def smallSig0 (x : Nat) : Nat := rotr 7 x ^^^ rotr 18 x ^^^ x / 2 ^ 3

def smallSig1 (x : Nat) : Nat := rotr 17 x ^^^ rotr 19 x ^^^ x / 2 ^ 10

/-- The 64 SHA-256 round constants. -/
def K256 : List Nat :=
  [1116352408, 1899447441, 3049323471, 3921009573,
   961987163, 1508970993, 2453635748, 2870763221,
   3624381080, 310598401, 607225278, 1426881987,
   1925078388, 2162078206, 2614888103, 3248222580,
   3835390401, 4022224774, 264347078, 604807628,
   770255983, 1249150122, 1555081692, 1996064986,
   2554220882, 2821834349, 2952996808, 3210313671,
   3336571891, 3584528711, 113926993, 338241895,
   666307205, 773529912, 1294757372, 1396182291,
   1695183700, 1986661051, 2177026350, 2456956037,
   2730485921, 2820302411, 3259730800, 3345764771,
   3516065817, 3600352804, 4094571909, 275423344,
   430227734, 506948616, 659060556, 883997877,
   958139571, 1322822218, 1537002063, 1747873779,
   1955562222, 2024104815, 2227730452, 2361852424,
   2428436474, 2756734187, 3204031479, 3329325298]

/-- The eight working variables / hash state words of SHA-256. -/
structure Hash8 where
  a : Nat
  b : Nat
  c : Nat
  d : Nat
  e : Nat
  f : Nat
  g : Nat
  h : Nat
  deriving DecidableEq

/-- Initial hash value H(0). -/
def sha256Init : Hash8 :=
  ⟨1779033703, 3144134277, 1013904242, 2773480762,
   1359893119, 2600822924, 528734635, 1541459225⟩

/-- One SHA-256 round, consuming one (schedule word, round constant) pair. -/
def sha256Round (s : Hash8) (wk : Nat × Nat) : Hash8 :=
  let ch := (s.e &&& s.f) ^^^ ((s.e ^^^ 4294967295) &&& s.g)
  let maj := (s.a &&& s.b) ^^^ (s.a &&& s.c) ^^^ (s.b &&& s.c)
  let t1 := w32 (s.h + bigSig1 s.e + ch + wk.2 + wk.1)
  let t2 := w32 (bigSig0 s.a + maj)
  ⟨w32 (t1 + t2), s.a, s.b, s.c, w32 (s.d + t1), s.e, s.f, s.g⟩

/-- Fold groups of four bytes (big-endian) into 32-bit words. -/
def bytesToWords : List Nat → List Nat
  | b0 :: b1 :: b2 :: b3 :: rest =>
      (b0 * 16777216 + b1 * 65536 + b2 * 256 + b3) :: bytesToWords rest
  | _ => []

/-- Extend the 16 message-schedule words by k further words. -/
def extendSchedule : List Nat → Nat → List Nat
  | ws, 0 => ws
  | ws, k + 1 =>
      let n := ws.length
      let nw := w32 (smallSig1 (ws.getD (n - 2) 0) + ws.getD (n - 7) 0 +
                     smallSig0 (ws.getD (n - 15) 0) + ws.getD (n - 16) 0)
      extendSchedule (ws ++ [nw]) k

/-- Compress one 64-byte block into the running hash value. -/
def compressBlock (h0 : Hash8) (block : List Nat) : Hash8 :=
  let ws := extendSchedule (bytesToWords block) 48
  let s := (ws.zip K256).foldl sha256Round h0
  ⟨w32 (h0.a + s.a), w32 (h0.b + s.b), w32 (h0.c + s.c), w32 (h0.d + s.d),
   w32 (h0.e + s.e), w32 (h0.f + s.f), w32 (h0.g + s.g), w32 (h0.h + s.h)⟩

/-- SHA-256 padding: append 0x80, zeros to 56 mod 64, then the bit length
as eight big-endian bytes. -/
def padMessage (ms : List Nat) : List Nat :=
  let l := ms.length
  let bl := 8 * l
  ms ++ 128 :: List.replicate ((119 - l % 64) % 64) 0 ++
    [bl / 2 ^ 56 % 256, bl / 2 ^ 48 % 256, bl / 2 ^ 40 % 256,
     bl / 2 ^ 32 % 256, bl / 2 ^ 24 % 256, bl / 2 ^ 16 % 256,
     bl / 2 ^ 8 % 256, bl % 256]

/-- Split into 64-byte blocks, with an explicit fuel argument so that the
recursion is structural (the fuel is an upper bound on the length). -/
def toBlocksAux : Nat → List Nat → List (List Nat)
  | 0, _ => []
  | _, [] => []
  | n + 1, l => l.take 64 :: toBlocksAux n (l.drop 64)

def toBlocks (l : List Nat) : List (List Nat) := toBlocksAux l.length l

/-- Big-endian bytes of one 32-bit word. -/
def wordBytes (w : Nat) : List Nat :=
  [w / 16777216 % 256, w / 65536 % 256, w / 256 % 256, w % 256]

/-- The 32 digest bytes of a final hash state. -/
def digestBytes (s : Hash8) : List Nat :=
  [s.a, s.b, s.c, s.d, s.e, s.f, s.g, s.h].flatMap wordBytes

/-- SHA-256 of a byte string. -/
def sha256 (ms : List Nat) : List Nat :=
  digestBytes ((toBlocks (padMessage ms)).foldl compressBlock sha256Init)

/-- Lower-case hex digit for a value below 16 (as .hexdigest() produces). -/
def hexDigit (n : Nat) : Char :=
  if n < 10 then Char.ofNat (48 + n) else Char.ofNat (87 + n)

/-- Lower-case hex rendering of a byte string (hashlib .hexdigest()). -/
def hexChars (bs : List Nat) : List Char :=
  bs.flatMap (fun b => [hexDigit (b / 16), hexDigit (b % 16)])

/-! ## UTF-8 encoding (Python str.encode()) -/

/-- UTF-8 bytes of one code point (Python str.encode() default encoding). -/
def utf8EncodeChar (c : Char) : List Nat :=
  let n := c.toNat
  if n < 128 then [n]
  else if n < 2048 then [192 + n / 64, 128 + n % 64]
  else if n < 65536 then [224 + n / 4096, 128 + n / 64 % 64, 128 + n % 64]
  else [240 + n / 262144, 128 + n / 4096 % 64, 128 + n / 64 % 64, 128 + n % 64]

/-- UTF-8 bytes of a string (Python str.encode()). -/
def utf8Encode (s : List Char) : List Nat := s.flatMap utf8EncodeChar

/-! ## PR data and the cache key (src/pr_review.py lines 104-107) -/

/-- The slice of the fetch_pr_data result that the cache key depends on:
pr_data["pr"]["number"] (an integer from the gh JSON) and pr_data["diff"]
(the unified diff text).  The remaining fields (title, body, url, author,
files) only feed the prompt text sent to the completion service. -/
structure PRData where
  number : Nat
  diff : List Char
  deriving DecidableEq

/-- PRReviewer.get_cache_key (source lines 104-107): diff_hash is the
sha256 hexdigest of the UTF-8 encoded diff; the key is the f-string
interpolation of the literal pieces pr_ and _, the decimal rendering of
the PR number, and the first 8 characters of diff_hash. -/
def get_cache_key (pr_data : PRData) : List Char :=
  let diff_hash := hexChars (sha256 (utf8Encode pr_data.diff))
  chars "pr_" ++ (Nat.repr pr_data.number).data ++ chars "_" ++ diff_hash.take 8

/-! ## PRReviewer.parse_pr_url (source lines 43-49)

The source matches the regular expression
  https://github\.com/([^/]+)/([^/]+)/pull/(\d+)
with re.match (anchored at the start of the string only, not at the end)
and raises ValueError on mismatch.  Because the character class excludes
exactly the slash character and is followed by a literal slash, and the
digit group sits at the end of the pattern, the regex engine's greedy
matching is deterministic and equal to maximal-munch scanning; the
embedding below scans accordingly.  The \d class is modelled as ASCII
digits; Python's \d also accepts non-ASCII Unicode decimal digits, so
theorems constraining the failure behaviour carry an ASCII hypothesis. -/

/-- Python-style error values raised by the embedded operations. -/
inductive PyErr where
  | valueError (msg : List Char)
  | jsonError
  deriving DecidableEq

/-- The message str(e) printed by the top-level handler in main. -/
def pyErrMsg : PyErr → List Char
  | .valueError m => m
  | .jsonError => chars "json decode error"

/-- Strip an exact literal from the front, or fail. -/
def dropLit : List Char → List Char → Option (List Char)
  | [], s => some s
  | _ :: _, [] => none
  | p :: ps, c :: cs => if c = p then dropLit ps cs else none

/-- The class [^/] of the pattern. -/
def notSlash (c : Char) : Bool := decide (c ≠ '/')

/-- The class \d of the pattern, restricted to ASCII digits. -/
def isPyDigit (c : Char) : Bool := decide (48 ≤ c.toNat ∧ c.toNat ≤ 57)

/-- The ValueError raised on mismatch, message f-string included. -/
def invalidUrl (url : List Char) : Except PyErr (List Char × List Char × List Char) :=
  .error (.valueError (chars "Invalid GitHub PR URL: " ++ url))

/-- PRReviewer.parse_pr_url: returns match.groups() of the pattern above,
or raises ValueError with the offending URL. -/
def parse_pr_url (url : List Char) : Except PyErr (List Char × List Char × List Char) :=
  match dropLit (chars "https://github.com/") url with
  | none => invalidUrl url
  | some r1 =>
    match r1.takeWhile notSlash, r1.dropWhile notSlash with
    | a :: os, '/' :: r3 =>
      match r3.takeWhile notSlash, dropLit (chars "/pull/") (r3.dropWhile notSlash) with
      | b :: rs, some r5 =>
        match r5.takeWhile isPyDigit with
        | [] => invalidUrl url
        | d :: ds => Except.ok (a :: os, b :: rs, d :: ds)
      | _, _ => invalidUrl url
    | _, _ => invalidUrl url

/-- Well-formed components of a GitHub PR URL: owner and repo non-empty
and slash-free, number a non-empty digit string. -/
def PRUrlParts (o r n : List Char) : Prop :=
  o ≠ [] ∧ r ≠ [] ∧ n ≠ [] ∧ (∀ c ∈ o, c ≠ '/') ∧ (∀ c ∈ r, c ≠ '/') ∧
    ∀ c ∈ n, isPyDigit c = true

/-- The exact URL text assembled from components. -/
def prUrlOf (o r n : List Char) : List Char :=
  chars "https://github.com/" ++ o ++ chars "/" ++ r ++ chars "/pull/" ++ n

/-- The string is exactly a well-formed GitHub PR URL. -/
def IsExactPRUrl (s : List Char) : Prop :=
  ∃ o r n, PRUrlParts o r n ∧ s = prUrlOf o r n

/-- The string begins with a well-formed GitHub PR URL (re.match does not
anchor the end of the pattern, so trailing text is permitted). -/
def StartsWithPRUrl (s : List Char) : Prop :=
  ∃ o r n rest, PRUrlParts o r n ∧ s = prUrlOf o r n ++ rest

/-! ## Cache store (save_cache / load_cache, source lines 109-122)

The cache directory is modelled as an association list from file name to
file content.  A file written by json.dump of a Python dict with string
values is modelled at the JSON-value level as a jsonObj (the json library
round-trips such dicts through dump and load); raw models any other text
file, on which json.load raises. -/

inductive FileContent where
  | jsonObj (fields : List (List Char × List Char))
  | raw (text : List Char)
  deriving DecidableEq

/-- The files living under the reviewer's cache directory, plus whether
the directory itself exists. -/
structure Files where
  cacheDirExists : Bool
  entries : List (List Char × FileContent)
  deriving DecidableEq

/-- Look a file up by name. -/
def fsGet : List (List Char × FileContent) → List Char → Option FileContent
  | [], _ => none
  | (n, c) :: rest, name => if n = name then some c else fsGet rest name

/-- dict.get on a JSON object with string values. -/
def fieldGet : List (List Char × List Char) → List Char → Option (List Char)
  | [], _ => none
  | (k, v) :: rest, key => if k = key then some v else fieldGet rest key

/-- Create or overwrite a file. -/
def setFile (fs : Files) (name : List Char) (c : FileContent) : Files :=
  { fs with entries := (name, c) :: fs.entries.filter (fun p => decide (p.1 ≠ name)) }

/-- Delete a file (Path.unlink). -/
def delFile (fs : Files) (name : List Char) : Files :=
  { fs with entries := fs.entries.filter (fun p => decide (p.1 ≠ name)) }

/-- PRReviewer.save_cache: json.dump of a dict with the single key review
into the file cache_key plus .json under the cache directory. -/
def save_cache (fs : Files) (cache_key review : List Char) : Files :=
  setFile fs (cache_key ++ chars ".json") (.jsonObj [(chars "review", review)])

/-- PRReviewer.load_cache: if the cache file exists, json.load it and
return data.get of the review key; otherwise return None.  json.load on a
file that does not hold a JSON object raises (propagated as an error). -/
def load_cache (fs : Files) (cache_key : List Char) : Except PyErr (Option (List Char)) :=
  match fsGet fs.entries (cache_key ++ chars ".json") with
  | none => Except.ok none
  | some (.jsonObj fields) => Except.ok (fieldGet fields (chars "review"))
  | some (.raw _) => Except.error PyErr.jsonError

/-! ## Orchestration model (main, source lines 199-264)

The run of the click command main is modelled as a function of
  - the process environment (the two variables the program reads),
  - an oracle World fixing the outcome of each external interaction
    (gh subprocesses, prompt file, completion endpoint, posting), and
  - the initial contents of the cache directory,
returning the observable outcome: the ordered trace of side effects, the
process exit code (0 when main returns normally), the final cache
directory contents, and the review text that reached the display step,
if any.  sys.exit(1) deep inside a helper is modelled by the branch of
mainRun that corresponds to that call path ending the run with exit code
1, matching the observable behaviour (SystemExit is not caught by the
except Exception handlers). -/

/-- The two environment variables the program reads (source lines 28, 39). -/
structure Env where
  base_url : Option (List Char)
  api_key : Option (List Char)
  deriving DecidableEq

/-- Oracle for the outcomes of the external interactions of one run. -/
structure World where
  env : Env
  fetchOk : Bool
  prData : PRData
  promptOk : Bool
  genOk : Bool
  genReview : List Char
  postOk : Bool
  deriving DecidableEq

/-- Observable side effects, in program order. -/
inductive Effect where
  | mkdirCache
  | consolePrint (msg : List Char)
  | ghExec (args : List (List Char))
  | apiCall
  | cacheSave (key : List Char)
  | tempWrite (name : List Char)
  | tempDelete (name : List Char)
  deriving DecidableEq

/-- Python truthiness of a string. -/
def pyTruthyStr (s : List Char) : Bool := !s.isEmpty

/-- Python truthiness of a str-or-None value. -/
def pyTruthyOptStr : Option (List Char) → Bool
  | none => false
  | some s => pyTruthyStr s

/-- Arguments of the gh pr view metadata query (source lines 67-77). -/
def ghViewArgs (owner repo pr_number : List Char) : List (List Char) :=
  [chars "pr", chars "view", pr_number, chars "--repo",
   owner ++ chars "/" ++ repo, chars "--json", chars "title,body,number,url,author"]

/-- Arguments of the gh pr diff query (source lines 81-83). -/
def ghDiffArgs (owner repo pr_number : List Char) : List (List Char) :=
  [chars "pr", chars "diff", pr_number, chars "--repo", owner ++ chars "/" ++ repo]

/-- Arguments of the gh pr view files query (source lines 86-88). -/
def ghFilesArgs (owner repo pr_number : List Char) : List (List Char) :=
  [chars "pr", chars "view", pr_number, chars "--repo",
   owner ++ chars "/" ++ repo, chars "--json", chars "files"]

/-- Arguments of the gh pr comment call (source lines 177-187). -/
def ghCommentArgs (owner repo pr_number temp_name : List Char) : List (List Char) :=
  [chars "pr", chars "comment", pr_number, chars "--repo",
   owner ++ chars "/" ++ repo, chars "--body-file", temp_name]

/-- Outcome of PRReviewer.post_review: final files, effect trace, and
some 1 when it ended the process via sys.exit(1), none when it returned. -/
structure PostResult where
  files : Files
  effects : List Effect
  exitCode : Option Nat
  deriving DecidableEq

/-- The temporary body file name used by post_review (source line 172). -/
def tempName (pr_number : List Char) : List Char :=
  chars "review_" ++ pr_number ++ chars ".md"

/-- PRReviewer.post_review (source lines 167-196): write the review to a
temporary file under the cache directory, invoke gh pr comment with it as
body file; on success delete the file, on gh failure run_gh_command
prints the error and exits 1, leaving the file behind. -/
def post_review (postOk : Bool) (fs : Files) (owner repo pr_number review : List Char) :
    PostResult :=
  let temp := tempName pr_number
  let fs1 := setFile fs temp (.raw review)
  if postOk then
    { files := delFile fs1 temp
      effects := [.consolePrint (chars "Posting review to GitHub..."),
                  .tempWrite temp,
                  .ghExec (ghCommentArgs owner repo pr_number temp),
                  .consolePrint (chars "Review posted successfully!"),
                  .tempDelete temp]
      exitCode := none }
  else
    { files := fs1
      effects := [.consolePrint (chars "Posting review to GitHub..."),
                  .tempWrite temp,
                  .ghExec (ghCommentArgs owner repo pr_number temp),
                  .consolePrint (chars "Error running gh command")]
      exitCode := some 1 }

/-- Observable outcome of one run of main. -/
structure RunResult where
  trace : List Effect
  exitCode : Nat
  files : Files
  reviewOut : Option (List Char)
  deriving DecidableEq

/-- The tail of main from the display step on (source lines 252-260):
print the review, then post it unless dry_run. -/
def displayAndPost (w : World) (owner repo pr_number review : List Char)
    (dry_run : Bool) (fs : Files) (tr : List Effect) : RunResult :=
  let tr1 := tr ++ [Effect.consolePrint (chars "Generated Review:"),
                    Effect.consolePrint review]
  if dry_run then
    { trace := tr1 ++ [.consolePrint (chars "Dry run mode - review not posted")]
      exitCode := 0
      files := fs
      reviewOut := some review }
  else
    let p := post_review w.postOk fs owner repo pr_number review
    { trace := tr1 ++ p.effects
      exitCode := p.exitCode.getD 0
      files := p.files
      reviewOut := some review }

/-- The generate-and-save path of main (source lines 243-250), entered
when no truthy cached review is at hand: review_pr (which loads the
prompt file, then calls the completion endpoint, exiting 1 on either
failure), then save_cache when caching is enabled, then the tail. -/
def generateAndFinish (w : World) (owner repo pr_number cache_key : List Char)
    (cacheFlag dry_run : Bool) (fs : Files) (tr : List Effect) : RunResult :=
  if w.promptOk = false then
    { trace := tr ++ [.consolePrint (chars "Error: gemini_prompt.yaml not found")]
      exitCode := 1, files := fs, reviewOut := none }
  else if w.genOk = false then
    { trace := tr ++ [.consolePrint (chars "Sending PR for review..."), .apiCall,
                      .consolePrint (chars "Error calling AI service")]
      exitCode := 1, files := fs, reviewOut := none }
  else
    let review := w.genReview
    let fs2 := if cacheFlag then save_cache fs cache_key review else fs
    let tr2 := tr ++ [.consolePrint (chars "Sending PR for review..."), .apiCall] ++
      (if cacheFlag then [Effect.cacheSave cache_key] else [])
    displayAndPost w owner repo pr_number review dry_run fs2 tr2

/-- One full run of main (source lines 199-264): construct the reviewer
(mkdir of the cache directory, then the base-URL check), parse the URL,
fetch the PR data through three gh subprocesses, look the cache up when
enabled, generate on miss, display, and post unless dry_run.  Uncaught
exceptions inside the try block reach the top-level handler, which
prints the message and exits 1. -/
def mainRun (w : World) (pr_url : List Char) (cacheFlag dry_run : Bool)
    (fs0 : Files) : RunResult :=
  let fs1 : Files := { fs0 with cacheDirExists := true }
  let t0 : List Effect := [Effect.mkdirCache]
  if pyTruthyOptStr w.env.base_url = false then
    { trace := t0 ++
        [.consolePrint (chars "Error: OPENAI_BASE_URL environment variable must be set"),
         .consolePrint (chars "Example: export OPENAI_BASE_URL=https://api.openai.com/v1")]
      exitCode := 1, files := fs1, reviewOut := none }
  else
    match parse_pr_url pr_url with
    | .error e =>
      { trace := t0 ++ [.consolePrint (chars "Error: " ++ pyErrMsg e)]
        exitCode := 1, files := fs1, reviewOut := none }
    | .ok (owner, repo, pr_number) =>
      let tf := t0 ++ [Effect.consolePrint (chars "Fetching PR data")]
      if w.fetchOk = false then
        { trace := tf ++ [.ghExec (ghViewArgs owner repo pr_number),
                          .consolePrint (chars "Error running gh command")]
          exitCode := 1, files := fs1, reviewOut := none }
      else
        let t1 := tf ++ [Effect.ghExec (ghViewArgs owner repo pr_number),
                         Effect.ghExec (ghDiffArgs owner repo pr_number),
                         Effect.ghExec (ghFilesArgs owner repo pr_number)]
        let cache_key := get_cache_key w.prData
        if cacheFlag then
          match load_cache fs1 cache_key with
          | .error e =>
            { trace := t1 ++ [.consolePrint (chars "Error: " ++ pyErrMsg e)]
              exitCode := 1, files := fs1, reviewOut := none }
          | .ok cached =>
            if pyTruthyOptStr cached then
              displayAndPost w owner repo pr_number (cached.getD []) dry_run fs1
                (t1 ++ [Effect.consolePrint (chars "Using cached review")])
            else
              generateAndFinish w owner repo pr_number cache_key cacheFlag dry_run fs1 t1
        else
          generateAndFinish w owner repo pr_number cache_key cacheFlag dry_run fs1 t1

/-! ## Helper lemmas about lists, the store, and the hash -/

theorem takeWhile_append_stop {α : Type} {p : α → Bool} {l : List α} {x : α} (t : List α)
    (hl : ∀ c ∈ l, p c = true) (hx : p x = false) :
    (l ++ x :: t).takeWhile p = l := by
  induction l with
  | nil => simp [List.takeWhile_cons, hx]
  | cons a l ih =>
    have ha : p a = true := hl a (by simp)
    simp only [List.cons_append, List.takeWhile_cons, ha, if_true]
    rw [ih (fun c hc => hl c (by simp [hc]))]

theorem dropWhile_append_stop {α : Type} {p : α → Bool} {l : List α} {x : α} (t : List α)
    (hl : ∀ c ∈ l, p c = true) (hx : p x = false) :
    (l ++ x :: t).dropWhile p = x :: t := by
  induction l with
  | nil => simp [List.dropWhile_cons, hx]
  | cons a l ih =>
    have ha : p a = true := hl a (by simp)
    simp only [List.cons_append, List.dropWhile_cons, ha, if_true]
    exact ih (fun c hc => hl c (by simp [hc]))

theorem dropLit_self_append (p s : List Char) : dropLit p (p ++ s) = some s := by
  induction p with
  | nil => rfl
  | cons a p ih => simp [dropLit, ih]

theorem dropLit_eq_some : ∀ {p s r : List Char}, dropLit p s = some r → s = p ++ r := by
  intro p
  induction p with
  | nil =>
    intro s r h
    simp only [dropLit, Option.some.injEq] at h
    simp [h]
  | cons a p ih =>
    intro s r h
    match s with
    | [] => simp [dropLit] at h
    | c :: cs =>
      simp only [dropLit] at h
      by_cases hc : c = a
      · subst hc
        simp only [if_pos rfl] at h
        simp [ih h]
      · simp [if_neg hc] at h

theorem fsGet_setFile_self (fs : Files) (n : List Char) (c : FileContent) :
    fsGet (setFile fs n c).entries n = some c := by
  simp [setFile, fsGet]

theorem fsGet_filter_ne_self (l : List (List Char × FileContent)) (n : List Char) :
    fsGet (l.filter (fun q => decide (q.1 ≠ n))) n = none := by
  induction l with
  | nil => rfl
  | cons a l ih =>
    obtain ⟨k, c⟩ := a
    rw [List.filter_cons]
    by_cases h : k = n
    · rw [if_neg (by simp [h])]
      exact ih
    · rw [if_pos (by simp [h])]
      simp only [fsGet, if_neg h]
      exact ih

theorem fsGet_delFile_self (fs : Files) (n : List Char) :
    fsGet (delFile fs n).entries n = none :=
  fsGet_filter_ne_self fs.entries n

theorem length_digestBytes (s : Hash8) : (digestBytes s).length = 32 := rfl

theorem sha256_length (ms : List Nat) : (sha256 ms).length = 32 := rfl

theorem mem_wordBytes_lt {b w : Nat} (h : b ∈ wordBytes w) : b < 256 := by
  simp only [wordBytes, List.mem_cons, List.not_mem_nil, or_false] at h
  rcases h with rfl | rfl | rfl | rfl <;> exact Nat.mod_lt _ (by norm_num)

theorem sha256_mem_lt {b : Nat} {ms : List Nat} (h : b ∈ sha256 ms) : b < 256 := by
  simp only [sha256, digestBytes, List.mem_flatMap] at h
  obtain ⟨w, _, hb⟩ := h
  exact mem_wordBytes_lt hb

theorem length_hexChars (bs : List Nat) : (hexChars bs).length = 2 * bs.length := by
  induction bs with
  | nil => rfl
  | cons b bs ih =>
    simp only [hexChars, List.flatMap_cons, List.length_append, List.length_cons,
      List.length_nil, List.length, ih] at ih ⊢
    simp [hexChars] at ih ⊢
    omega

/-- The 16 characters .hexdigest() may produce. -/
def isHexDigitChar (c : Char) : Bool := (chars "0123456789abcdef").contains c

theorem hexDigit_isHex : ∀ n, n < 16 → isHexDigitChar (hexDigit n) = true := by decide

theorem mem_hexChars_isHex {c : Char} {bs : List Nat} (hlt : ∀ b ∈ bs, b < 256)
    (h : c ∈ hexChars bs) : isHexDigitChar c = true := by
  simp only [hexChars, List.mem_flatMap] at h
  obtain ⟨b, hb, hc⟩ := h
  have hb256 := hlt b hb
  simp only [List.mem_cons, List.not_mem_nil, or_false] at hc
  rcases hc with rfl | rfl
  · exact hexDigit_isHex _ (Nat.div_lt_of_lt_mul (by omega))
  · exact hexDigit_isHex _ (Nat.mod_lt _ (by norm_num))

/-! ## Claim C1: the cache key -/

/-- C1: for every PR-data record with number n and diff d, get_cache_key
returns exactly pr_ ++ decimal n ++ _ ++ the first 8 hexadecimal
characters of the sha256 hexdigest of d; the taken piece really consists
of 8 hexadecimal characters, and the key is a pure function of the
(number, diff) pair: identical pairs always yield the same key. -/
theorem get_cache_key_spec (p : PRData) :
    get_cache_key p =
      chars "pr_" ++ (Nat.repr p.number).data ++ chars "_" ++
        (hexChars (sha256 (utf8Encode p.diff))).take 8 ∧
    ((hexChars (sha256 (utf8Encode p.diff))).take 8).length = 8 ∧
    (∀ c ∈ (hexChars (sha256 (utf8Encode p.diff))).take 8, isHexDigitChar c = true) ∧
    ∀ q : PRData, q.number = p.number → q.diff = p.diff →
      get_cache_key q = get_cache_key p := by
  refine ⟨rfl, ?_, ?_, ?_⟩
  · rw [List.length_take, length_hexChars, sha256_length]
    norm_num
  · intro c hc
    exact mem_hexChars_isHex (fun b hb => sha256_mem_lt hb) (List.mem_of_mem_take hc)
  · intro q h1 h2
    simp [get_cache_key, h1, h2]

/-- Witness for C1 at the end-to-end example of the spec: PR number 42,
diff text given there. -/
theorem get_cache_key_spec_witness :
    ((hexChars (sha256 (utf8Encode (chars "+foo\n-bar\n")))).take 8).length = 8 ∧
    get_cache_key ⟨42, chars "+foo\n-bar\n"⟩ = get_cache_key ⟨42, chars "+foo\n-bar\n"⟩ :=
  ⟨(get_cache_key_spec ⟨42, chars "+foo\n-bar\n"⟩).2.1,
   (get_cache_key_spec ⟨42, chars "+foo\n-bar\n"⟩).2.2.2 ⟨42, chars "+foo\n-bar\n"⟩ rfl rfl⟩

/-! ## Claim C3: save/load round-trip -/

/-- C3: for every cache state, key and review string, save_cache followed
by load_cache with the same key returns exactly the saved review. -/
theorem save_load_roundtrip (fs : Files) (k r : List Char) :
    load_cache (save_cache fs k r) k = Except.ok (some r) := by
  simp only [load_cache, save_cache, fsGet_setFile_self]
  simp [fieldGet]

/-! ## Claim C6: load on an absent key -/

/-- C6: when no cache file exists for the key, load_cache returns None
(and not an error): the existence check short-circuits the read. -/
theorem load_cache_absent (fs : Files) (k : List Char)
    (h : fsGet fs.entries (k ++ chars ".json") = none) :
    load_cache fs k = Except.ok none := by
  simp [load_cache, h]

/-- Witness for C6: an empty cache directory and a typical key. -/
theorem load_cache_absent_witness :
    load_cache ⟨true, []⟩ (chars "pr_7_0a1b2c3d") = Except.ok none :=
  load_cache_absent ⟨true, []⟩ (chars "pr_7_0a1b2c3d") rfl

/-! ## Parser lemmas (claims C4 and C5) -/

theorem notSlash_eq_true {c : Char} (h : c ≠ '/') : notSlash c = true := by
  simp [notSlash, h]

theorem of_notSlash {c : Char} (h : notSlash c = true) : c ≠ '/' := by
  simpa [notSlash] using h

/-- Core parsing lemma: on the exact well-formed URL text the parser
returns the three components. -/
theorem parse_prUrlOf {o r n : List Char} (h : PRUrlParts o r n) :
    parse_pr_url (prUrlOf o r n) = Except.ok (o, r, n) := by
  obtain ⟨ho, hr, hn, ho', hr', hn'⟩ := h
  obtain ⟨a, os, rfl⟩ := List.exists_cons_of_ne_nil ho
  obtain ⟨b, rs, rfl⟩ := List.exists_cons_of_ne_nil hr
  obtain ⟨d, ds, rfl⟩ := List.exists_cons_of_ne_nil hn
  have hurl : prUrlOf (a :: os) (b :: rs) (d :: ds) =
      chars "https://github.com/" ++
        ((a :: os) ++ '/' :: ((b :: rs) ++ '/' :: (chars "pull/" ++ (d :: ds)))) := by
    simp only [prUrlOf, List.append_assoc]
    rfl
  have h1 : ((a :: os) ++ '/' :: ((b :: rs) ++ '/' :: (chars "pull/" ++ (d :: ds)))).takeWhile
      notSlash = a :: os :=
    takeWhile_append_stop _ (fun c hc => notSlash_eq_true (ho' c hc)) (by decide)
  have h2 : ((a :: os) ++ '/' :: ((b :: rs) ++ '/' :: (chars "pull/" ++ (d :: ds)))).dropWhile
      notSlash = '/' :: ((b :: rs) ++ '/' :: (chars "pull/" ++ (d :: ds))) :=
    dropWhile_append_stop _ (fun c hc => notSlash_eq_true (ho' c hc)) (by decide)
  have h3 : ((b :: rs) ++ '/' :: (chars "pull/" ++ (d :: ds))).takeWhile notSlash = b :: rs :=
    takeWhile_append_stop _ (fun c hc => notSlash_eq_true (hr' c hc)) (by decide)
  have h4 : ((b :: rs) ++ '/' :: (chars "pull/" ++ (d :: ds))).dropWhile notSlash =
      '/' :: (chars "pull/" ++ (d :: ds)) :=
    dropWhile_append_stop _ (fun c hc => notSlash_eq_true (hr' c hc)) (by decide)
  have h5 : dropLit (chars "/pull/") ('/' :: (chars "pull/" ++ (d :: ds))) = some (d :: ds) :=
    dropLit_self_append (chars "/pull/") (d :: ds)
  have h6 : (d :: ds).takeWhile isPyDigit = d :: ds :=
    List.takeWhile_eq_self_iff.mpr hn'
  simp only [parse_pr_url, hurl, dropLit_self_append, h1, h2, h3, h4, h5, h6]

/-! ## Claim C5: well-formed URLs parse to their components -/

/-- C5: for every URL of exactly the form https://github.com/o/r/pull/n
with o, r non-empty and slash-free and n a non-empty digit string,
parse_pr_url succeeds and returns exactly (o, r, n). -/
theorem parse_pr_url_exact_ok (o r n : List Char) (ho : o ≠ []) (hr : r ≠ []) (hn : n ≠ [])
    (ho' : ∀ c ∈ o, c ≠ '/') (hr' : ∀ c ∈ r, c ≠ '/')
    (hn' : ∀ c ∈ n, isPyDigit c = true) :
    parse_pr_url (prUrlOf o r n) = Except.ok (o, r, n) :=
  parse_prUrlOf ⟨ho, hr, hn, ho', hr', hn'⟩

/-- Witness for C5 at the end-to-end example of the spec. -/
theorem parse_pr_url_exact_ok_witness :
    parse_pr_url (prUrlOf (chars "acme") (chars "widgets") (chars "42")) =
      Except.ok (chars "acme", chars "widgets", chars "42") :=
  parse_pr_url_exact_ok (chars "acme") (chars "widgets") (chars "42")
    (by decide) (by decide) (by decide) (by decide) (by decide) (by decide)

/-! ## Claim C4: rejection of malformed URLs -/


/-- Every successful parse exhibits a well-formed PR URL at the start of
the input (re.match leaves the tail of the string unconstrained). -/
theorem parse_ok_startsWith {url : List Char} {t : List Char × List Char × List Char}
    (h : parse_pr_url url = Except.ok t) : StartsWithPRUrl url := by
  unfold parse_pr_url at h
  cases hd : dropLit (chars "https://github.com/") url with
  | none => simp [hd, invalidUrl] at h
  | some r1 =>
    simp only [hd] at h
    have hurl := dropLit_eq_some hd
    cases h1 : r1.takeWhile notSlash with
    | nil => simp [h1, invalidUrl] at h
    | cons a os =>
      cases h2 : r1.dropWhile notSlash with
      | nil => simp [h1, h2, invalidUrl] at h
      | cons c r3 =>
        simp only [h1, h2] at h
        split at h
        · rename_i r3' heq
          injection heq with hc hr3
          subst hc
          subst hr3
          cases h3 : r3.takeWhile notSlash with
          | nil => simp [h3, invalidUrl] at h
          | cons b rs =>
            cases h4 : dropLit (chars "/pull/") (r3.dropWhile notSlash) with
            | none => simp [h3, h4, invalidUrl] at h
            | some r5 =>
              simp only [h3, h4] at h
              cases h5 : r5.takeWhile isPyDigit with
              | nil => simp [h5, invalidUrl] at h
              | cons d ds =>
                simp only [h5] at h
                refine ⟨a :: os, b :: rs, d :: ds, r5.dropWhile isPyDigit,
                  ⟨by simp, by simp, by simp, ?_, ?_, ?_⟩, ?_⟩
                · intro x hx
                  exact of_notSlash (List.mem_takeWhile_imp (h1 ▸ hx))
                · intro x hx
                  exact of_notSlash (List.mem_takeWhile_imp (h3 ▸ hx))
                · intro x hx
                  exact List.mem_takeWhile_imp (h5 ▸ hx)
                · have hr1 : r1 = (a :: os) ++ '/' :: r3 := by
                    rw [← h1, ← h2, List.takeWhile_append_dropWhile]
                  have hr3 : r3 = (b :: rs) ++ r3.dropWhile notSlash := by
                    conv_lhs => rw [← List.takeWhile_append_dropWhile (p := notSlash) (l := r3)]
                    rw [h3]
                  have hr4 : r3.dropWhile notSlash = chars "/pull/" ++ r5 := dropLit_eq_some h4
                  have hr5 : r5 = (d :: ds) ++ r5.dropWhile isPyDigit := by
                    conv_lhs => rw [← List.takeWhile_append_dropWhile (p := isPyDigit) (l := r5)]
                    rw [h5]
                  rw [hurl, hr1, hr3, hr4]
                  conv_lhs => rw [hr5]
                  simp [prUrlOf, chars]
        · rename_i hno
          simp [invalidUrl] at h

/-- parse_pr_url either raises the ValueError carrying the URL, or
succeeds: no other outcome exists. -/
theorem parse_pr_url_err_or_ok (url : List Char) :
    parse_pr_url url = invalidUrl url ∨ ∃ t, parse_pr_url url = Except.ok t := by
  unfold parse_pr_url
  split
  · exact Or.inl rfl
  · split
    · split
      · split
        · exact Or.inl rfl
        · exact Or.inr ⟨_, rfl⟩
      · exact Or.inl rfl
    · exact Or.inl rfl

/-- C4 (amended): for every ASCII input string that does not BEGIN with a
well-formed PR URL, parse_pr_url fails with the ValueError carrying the
offending URL.  (Amended from the claim's "does not have the form"
because re.match does not anchor the end of the pattern: a well-formed
URL followed by trailing text also parses, see the counterexample.  The
ASCII hypothesis reflects that the model reads the \d class as ASCII
digits, while Python also accepts other Unicode decimal digits.) -/
theorem parse_pr_url_rejects (url : List Char)
    (_ascii : ∀ c ∈ url, c.toNat < 128)
    (h : ¬ StartsWithPRUrl url) :
    parse_pr_url url =
      Except.error (PyErr.valueError (chars "Invalid GitHub PR URL: " ++ url)) := by
  rcases parse_pr_url_err_or_ok url with he | ⟨t, ht⟩
  · exact he
  · exact absurd (parse_ok_startsWith ht) h

/-- Witness for the amended C4 at a concrete malformed input. -/
theorem parse_pr_url_rejects_witness :
    parse_pr_url (chars "not a url") =
      Except.error (PyErr.valueError (chars "Invalid GitHub PR URL: " ++ chars "not a url")) :=
  parse_pr_url_rejects (chars "not a url") (by decide) (by
    rintro ⟨o, r, n, rest, hp, heq⟩
    have hl := congrArg List.length heq
    rw [show (chars "not a url").length = 9 from rfl] at hl
    simp only [prUrlOf, List.length_append] at hl
    rw [show (chars "https://github.com/").length = 19 from rfl] at hl
    omega)

/-- Counterexample to C4 as stated: this string is not of the exact
well-formed shape (the number is followed by a trailing path segment),
yet parse_pr_url succeeds on it, because re.match accepts trailing
text after the pattern. -/
theorem parse_pr_url_trailing_cex :
    parse_pr_url (chars "https://github.com/o/r/pull/12/files") =
      Except.ok (chars "o", chars "r", chars "12") ∧
    ¬ IsExactPRUrl (chars "https://github.com/o/r/pull/12/files") := by
  constructor
  · rfl
  · rintro ⟨o, r, n, hp, heq⟩
    have hv : parse_pr_url (chars "https://github.com/o/r/pull/12/files") =
        Except.ok (chars "o", chars "r", chars "12") := rfl
    have h1 := parse_prUrlOf hp
    rw [← heq] at h1
    have h3 := hv.symm.trans h1
    injection h3 with h4
    injection h4 with h5 h6
    injection h6 with h7 h8
    subst h5
    subst h7
    subst h8
    exact absurd heq (by decide)

/-! ## Claim C9: the temporary body file of post_review -/

/-- C9: post_review writes the review text to the temporary file
review_ number .md under the cache directory; it deletes that file
exactly when the gh comment command succeeds; when posting fails the
file is left behind holding the review text and the process exits with
status 1. -/
theorem post_review_temp_file (postOk : Bool) (fs : Files) (o r n rv : List Char) :
    Effect.tempWrite (tempName n) ∈ (post_review postOk fs o r n rv).effects ∧
    (postOk = true →
      fsGet (post_review postOk fs o r n rv).files.entries (tempName n) = none ∧
      Effect.tempDelete (tempName n) ∈ (post_review postOk fs o r n rv).effects ∧
      (post_review postOk fs o r n rv).exitCode = none) ∧
    (postOk = false →
      fsGet (post_review postOk fs o r n rv).files.entries (tempName n) =
        some (FileContent.raw rv) ∧
      (∀ m, Effect.tempDelete m ∉ (post_review postOk fs o r n rv).effects) ∧
      (post_review postOk fs o r n rv).exitCode = some 1) := by
  cases postOk
  · refine ⟨by simp [post_review], by simp, fun _ => ⟨?_, ?_, rfl⟩⟩
    · simp [post_review, fsGet_setFile_self]
    · intro m
      simp [post_review]
  · refine ⟨by simp [post_review], fun _ => ⟨?_, by simp [post_review], rfl⟩, by simp⟩
    · simp [post_review, fsGet_delFile_self]

/-- Witness for C9, instantiating both the success and the failure case
at concrete inputs. -/
theorem post_review_temp_file_witness :
    (post_review true ⟨true, []⟩ (chars "a") (chars "b") (chars "7") (chars "R")).exitCode
      = none ∧
    fsGet (post_review false ⟨true, []⟩ (chars "a") (chars "b") (chars "7")
      (chars "R")).files.entries (tempName (chars "7")) =
      some (FileContent.raw (chars "R")) :=
  ⟨((post_review_temp_file true ⟨true, []⟩ (chars "a") (chars "b") (chars "7")
      (chars "R")).2.1 rfl).2.2,
   ((post_review_temp_file false ⟨true, []⟩ (chars "a") (chars "b") (chars "7")
      (chars "R")).2.2 rfl).1⟩

/-! ## Claim C7: missing OPENAI_BASE_URL -/

/-- C7: when OPENAI_BASE_URL is unset or empty, the run exits with
status 1 after printing the explanatory message, and its trace contains
no subprocess invocation and no network call: the reviewer constructor
aborts before the try block is entered. -/
theorem missing_base_url_aborts (w : World) (url : List Char) (cacheFlag dry_run : Bool)
    (fs0 : Files) (h : w.env.base_url = none ∨ w.env.base_url = some []) :
    (mainRun w url cacheFlag dry_run fs0).exitCode = 1 ∧
    Effect.consolePrint (chars "Error: OPENAI_BASE_URL environment variable must be set")
      ∈ (mainRun w url cacheFlag dry_run fs0).trace ∧
    (∀ args, Effect.ghExec args ∉ (mainRun w url cacheFlag dry_run fs0).trace) ∧
    Effect.apiCall ∉ (mainRun w url cacheFlag dry_run fs0).trace := by
  have hb : pyTruthyOptStr w.env.base_url = false := by
    rcases h with h | h <;> simp [h, pyTruthyOptStr, pyTruthyStr]
  refine ⟨?_, ?_, ?_, ?_⟩ <;> simp [mainRun, hb]

/-- Witness for C7 with the variable unset entirely. -/
theorem missing_base_url_aborts_witness :
    (mainRun ⟨⟨none, none⟩, true, ⟨1, []⟩, true, true, chars "R", true⟩
      (chars "https://github.com/a/b/pull/1") true false ⟨false, []⟩).exitCode = 1 ∧
    Effect.apiCall ∉ (mainRun ⟨⟨none, none⟩, true, ⟨1, []⟩, true, true, chars "R", true⟩
      (chars "https://github.com/a/b/pull/1") true false ⟨false, []⟩).trace :=
  ⟨(missing_base_url_aborts _ _ true false _ (Or.inl rfl)).1,
   (missing_base_url_aborts _ _ true false _ (Or.inl rfl)).2.2.2⟩

/-! ## Orchestration helper lemmas -/

theorem displayAndPost_reviewOut (w : World) (o r n rv : List Char) (d : Bool)
    (fs : Files) (tr : List Effect) :
    (displayAndPost w o r n rv d fs tr).reviewOut = some rv := by
  unfold displayAndPost
  split
  · rfl
  · rfl

theorem displayAndPost_trace_mem {e : Effect} {tr : List Effect}
    (w : World) (o r n rv : List Char) (d : Bool) (fs : Files)
    (hnotp : ∀ m, e ≠ Effect.consolePrint m)
    (hgh : ∀ a, e ≠ Effect.ghExec a)
    (htw : ∀ m, e ≠ Effect.tempWrite m)
    (htd : ∀ m, e ≠ Effect.tempDelete m)
    (htr : e ∉ tr) : e ∉ (displayAndPost w o r n rv d fs tr).trace := by
  unfold displayAndPost post_review
  split
  · simp [htr, hnotp, hgh, htw, htd]
  · split
    · simp [htr, hnotp, hgh, htw, htd]
    · simp [htr, hnotp, hgh, htw, htd]

/-! ## Claim C2: a cache hit skips the remote call -/

/-- C2 (amended): when caching is enabled and the run reaches the cache
lookup (base URL truthy, URL parses, fetch succeeds), and the entry
stored under the computed key holds a NON-EMPTY review string rv, the
run performs no completion-endpoint call and no cache save, and rv
itself is the review that reaches the display and posting steps.
(Amended from the claim's "a cache entry already exists" because an
entry whose review is the empty string fails Python's "if review:"
truthiness test and the run regenerates; see the counterexample.) -/
theorem cache_hit_skips_generation (w : World) (url o r n rv : List Char)
    (dry_run : Bool) (fs0 : Files)
    (hbase : pyTruthyOptStr w.env.base_url = true)
    (hparse : parse_pr_url url = Except.ok (o, r, n))
    (hfetch : w.fetchOk = true)
    (hload : load_cache { fs0 with cacheDirExists := true } (get_cache_key w.prData) =
      Except.ok (some rv))
    (hne : rv ≠ []) :
    Effect.apiCall ∉ (mainRun w url true dry_run fs0).trace ∧
    (∀ k, Effect.cacheSave k ∉ (mainRun w url true dry_run fs0).trace) ∧
    (mainRun w url true dry_run fs0).reviewOut = some rv := by
  have htr : pyTruthyOptStr (some rv) = true := by
    simp [pyTruthyOptStr, pyTruthyStr, hne]
  simp only [mainRun, hbase, hparse, hfetch, hload, htr, if_true, if_false,
    Bool.true_eq_false, ite_false, ite_true, Option.getD_some]
  refine ⟨?_, ?_, ?_⟩
  · exact displayAndPost_trace_mem w o r n rv dry_run _ (by simp) (by simp) (by simp)
      (by simp) (by simp)
  · intro k
    exact displayAndPost_trace_mem w o r n rv dry_run _ (by simp) (by simp) (by simp)
      (by simp) (by simp)
  · exact displayAndPost_reviewOut w o r n rv dry_run _ _

theorem displayAndPost_dry_trace (w : World) (o r n rv : List Char) (fs : Files)
    (tr : List Effect) :
    (displayAndPost w o r n rv true fs tr).trace =
      tr ++ [Effect.consolePrint (chars "Generated Review:"), Effect.consolePrint rv,
             Effect.consolePrint (chars "Dry run mode - review not posted")] := by
  unfold displayAndPost
  simp

theorem dry_branch_ok (w : World) (o r n rv : List Char) (fs : Files) (tr : List Effect)
    (h1 : ∀ m, Effect.tempWrite m ∉ tr) (h2 : ∀ m, Effect.tempDelete m ∉ tr) :
    (∀ m, Effect.tempWrite m ∉ (displayAndPost w o r n rv true fs tr).trace) ∧
    (∀ m, Effect.tempDelete m ∉ (displayAndPost w o r n rv true fs tr).trace) ∧
    (∀ rv2, (displayAndPost w o r n rv true fs tr).reviewOut = some rv2 →
      Effect.consolePrint rv2 ∈ (displayAndPost w o r n rv true fs tr).trace) := by
  refine ⟨?_, ?_, ?_⟩
  · intro m
    rw [displayAndPost_dry_trace]
    simp [h1]
  · intro m
    rw [displayAndPost_dry_trace]
    simp [h2]
  · intro rv2 hout
    rw [displayAndPost_reviewOut] at hout
    injection hout with hout
    subst hout
    rw [displayAndPost_dry_trace]
    simp

theorem generateAndFinish_dry (w : World) (o r n k : List Char) (cf : Bool) (fs : Files)
    (tr : List Effect)
    (h1 : ∀ m, Effect.tempWrite m ∉ tr) (h2 : ∀ m, Effect.tempDelete m ∉ tr) :
    (∀ m, Effect.tempWrite m ∉ (generateAndFinish w o r n k cf true fs tr).trace) ∧
    (∀ m, Effect.tempDelete m ∉ (generateAndFinish w o r n k cf true fs tr).trace) ∧
    (∀ rv, (generateAndFinish w o r n k cf true fs tr).reviewOut = some rv →
      Effect.consolePrint rv ∈ (generateAndFinish w o r n k cf true fs tr).trace) := by
  unfold generateAndFinish
  split
  · exact ⟨by simp [h1], by simp [h2], by simp⟩
  · split
    · exact ⟨by simp [h1], by simp [h2], by simp⟩
    · refine dry_branch_ok w o r n w.genReview _ _ ?_ ?_
      · intro m
        cases cf <;> simp [h1]
      · intro m
        cases cf <;> simp [h2]

/-! ## Claim C8: dry-run suppresses posting -/

/-- C8: a run invoked with dry-run never executes the posting step --
no branch of the run writes the temporary body file or deletes it
(post_review unconditionally writes it first, so its absence marks
post_review as never executed) -- while any review that was obtained
(cached or generated) is still printed to the console. -/
theorem dry_run_never_posts (w : World) (url : List Char) (cacheFlag : Bool) (fs0 : Files) :
    (∀ m, Effect.tempWrite m ∉ (mainRun w url cacheFlag true fs0).trace) ∧
    (∀ m, Effect.tempDelete m ∉ (mainRun w url cacheFlag true fs0).trace) ∧
    (∀ rv, (mainRun w url cacheFlag true fs0).reviewOut = some rv →
      Effect.consolePrint rv ∈ (mainRun w url cacheFlag true fs0).trace) := by
  unfold mainRun
  dsimp only
  split
  · exact ⟨by simp, by simp, by simp⟩
  · split
    · exact ⟨by simp, by simp, by simp⟩
    · split
      · exact ⟨by simp, by simp, by simp⟩
      · split
        · split
          · exact ⟨by simp, by simp, by simp⟩
          · split
            · exact dry_branch_ok w _ _ _ _ _ _ (by simp) (by simp)
            · exact generateAndFinish_dry w _ _ _ _ cacheFlag _ _ (by simp) (by simp)
        · exact generateAndFinish_dry w _ _ _ _ cacheFlag _ _ (by simp) (by simp)

/-- A world whose run reaches the cache lookup: base URL set, fetch and
generation and posting all succeed, PR number 1 with an empty diff. -/
def cexWorld : World :=
  ⟨⟨some (chars "https://proxy.example/v1"), none⟩, true, ⟨1, []⟩, true, true,
   chars "generated review", true⟩

def cexUrl : List Char := chars "https://github.com/a/b/pull/1"

/-- A cache directory holding, under the key computed for cexWorld's PR
data (pr_1_e3b0c442), an entry whose review string is empty. -/
def cexFiles : Files :=
  ⟨true, [(chars "pr_1_e3b0c442.json", FileContent.jsonObj [(chars "review", [])])]⟩

/-- Like cexFiles but with a non-empty cached review. -/
def hitFiles : Files :=
  ⟨true, [(chars "pr_1_e3b0c442.json", FileContent.jsonObj [(chars "review", chars "CACHED")])]⟩

/-- Counterexample to C2 as stated: a cache entry exists under the
computed key, yet the run still calls the completion endpoint and saves
the cache, because the stored review is the empty string and fails the
"if review:" truthiness test of main. -/
theorem cached_empty_review_cex :
    (fsGet cexFiles.entries (get_cache_key cexWorld.prData ++ chars ".json")).isSome = true ∧
    Effect.apiCall ∈ (mainRun cexWorld cexUrl true true cexFiles).trace ∧
    Effect.cacheSave (get_cache_key cexWorld.prData) ∈
      (mainRun cexWorld cexUrl true true cexFiles).trace := by
  refine ⟨by decide, by decide, by decide⟩

/-- Witness for the amended C2 at a concrete run with a non-empty cached
review. -/
theorem cache_hit_skips_generation_witness :
    Effect.apiCall ∉ (mainRun cexWorld cexUrl true false hitFiles).trace ∧
    (mainRun cexWorld cexUrl true false hitFiles).reviewOut = some (chars "CACHED") :=
  ⟨(cache_hit_skips_generation cexWorld cexUrl (chars "a") (chars "b") (chars "1")
      (chars "CACHED") false hitFiles rfl rfl rfl rfl (by decide)).1,
   (cache_hit_skips_generation cexWorld cexUrl (chars "a") (chars "b") (chars "1")
      (chars "CACHED") false hitFiles rfl rfl rfl rfl (by decide)).2.2⟩

/-- Witness for C8 at a concrete dry run with a cached review. -/
theorem dry_run_never_posts_witness :
    Effect.tempWrite (tempName (chars "1")) ∉
      (mainRun cexWorld cexUrl true true hitFiles).trace ∧
    Effect.consolePrint (chars "CACHED") ∈ (mainRun cexWorld cexUrl true true hitFiles).trace :=
  ⟨(dry_run_never_posts cexWorld cexUrl true hitFiles).1 (tempName (chars "1")),
   (dry_run_never_posts cexWorld cexUrl true hitFiles).2.2 (chars "CACHED") rfl⟩

/-! ## Claim C10: the cache directory is created before the env check -/

theorem post_review_cacheDir (postOk : Bool) (fs : Files) (o r n rv : List Char) :
    (post_review postOk fs o r n rv).files.cacheDirExists = fs.cacheDirExists := by
  unfold post_review
  split
  · rfl
  · rfl

theorem displayAndPost_cacheDir (w : World) (o r n rv : List Char) (d : Bool)
    (fs : Files) (tr : List Effect) :
    (displayAndPost w o r n rv d fs tr).files.cacheDirExists = fs.cacheDirExists := by
  unfold displayAndPost
  split
  · rfl
  · exact post_review_cacheDir w.postOk fs o r n rv

theorem generateAndFinish_cacheDir (w : World) (o r n k : List Char) (cf d : Bool)
    (fs : Files) (tr : List Effect) :
    (generateAndFinish w o r n k cf d fs tr).files.cacheDirExists = fs.cacheDirExists := by
  unfold generateAndFinish
  split
  · rfl
  · split
    · rfl
    · rw [displayAndPost_cacheDir]
      cases cf
      · rfl
      · rfl

/-- C10: every invocation of main leaves the reviewer's cache directory
created on disk -- PRReviewer.init performs mkdir before the base-URL
check -- including a run that aborts with exit code 1 because
OPENAI_BASE_URL is unset or empty. -/
theorem cache_dir_created (w : World) (url : List Char) (cacheFlag dry_run : Bool)
    (fs0 : Files) :
    (mainRun w url cacheFlag dry_run fs0).files.cacheDirExists = true ∧
    ((w.env.base_url = none ∨ w.env.base_url = some []) →
      (mainRun w url cacheFlag dry_run fs0).exitCode = 1 ∧
      (mainRun w url cacheFlag dry_run fs0).files.cacheDirExists = true) := by
  have hdir : (mainRun w url cacheFlag dry_run fs0).files.cacheDirExists = true := by
    unfold mainRun
    dsimp only
    split
    · rfl
    · split
      · rfl
      · split
        · rfl
        · split
          · split
            · rfl
            · split
              · rw [displayAndPost_cacheDir]
              · rw [generateAndFinish_cacheDir]
          · rw [generateAndFinish_cacheDir]
  refine ⟨hdir, fun h => ⟨?_, hdir⟩⟩
  have hb : pyTruthyOptStr w.env.base_url = false := by
    rcases h with h | h <;> simp [h, pyTruthyOptStr, pyTruthyStr]
  simp [mainRun, hb]

/-- Witness for C10 at a run aborting for lack of OPENAI_BASE_URL,
starting from a filesystem without the cache directory. -/
theorem cache_dir_created_witness :
    (mainRun ⟨⟨none, none⟩, true, ⟨1, []⟩, true, true, chars "R", true⟩
      cexUrl true false ⟨false, []⟩).files.cacheDirExists = true ∧
    (mainRun ⟨⟨none, none⟩, true, ⟨1, []⟩, true, true, chars "R", true⟩
      cexUrl true false ⟨false, []⟩).exitCode = 1 :=
  ⟨(cache_dir_created ⟨⟨none, none⟩, true, ⟨1, []⟩, true, true, chars "R", true⟩
      cexUrl true false ⟨false, []⟩).1,
   ((cache_dir_created ⟨⟨none, none⟩, true, ⟨1, []⟩, true, true, chars "R", true⟩
      cexUrl true false ⟨false, []⟩).2 (Or.inl rfl)).1⟩
